import Mathlib

/-!
Shallow embedding of `parseq.py`: a tokenizer, a recursive-descent parser
over the bracketed type-tagged encoding, and the two renderers
(`transform_ast`, the direct renderer, and `Flattener.flatten_ast`, the
flattening renderer).

Modelling conventions:
* Python's `None` token (returned by `current_token` past the end of the
  token list) is `Option String`'s `none`.
* Python exceptions become an explicit error type `PErr`; the
  recursive-descent loops are given a fuel parameter, and genuine
  non-termination of the source shows up as `PErr.fuelOut` for every fuel.
* Python `str.isdigit` is modelled on ASCII digits.
* Python `float` conversion and printing are modelled by exact decimal
  normalisation (strip leading/trailing zeros, guarantee a digit on each
  side of the dot); binary rounding and scientific notation are out of
  scope, and no claim depends on them.
* The in-place mutation of `Function.args` performed by both renderers on
  a list whose head is a `Function` is modelled by returning the tree as
  it stands after rendering, alongside the rendered output.
-/

mutual

inductive AST where
  | symbol (name : String)
  | integer (value : Int)
  | float (value : String)
  | boolean (value : Bool)
  | string (value : String)
  | function (name : String) (args : ASTList)
  | list (elements : ASTList)
  | dict (keys values : AST)

inductive ASTList where
  | nil
  | cons (head : AST) (tail : ASTList)

end

deriving instance DecidableEq for AST, ASTList

deriving instance DecidableEq for Except

/-- Errors of the embedded pipeline: explicit `raise ValueError` sites of
`parse_dict`, numeric-conversion failures of `int()`/`float()`, the
attribute error caused by classifying a `None` token in
`parse_simple_token`, and fuel exhaustion (modelling non-termination). -/
inductive PErr where
  | fuelOut
  | noneTokenAttr
  | dictExpectedComma (got : Option String)
  | dictExpectedBrace (got : Option String)
  | intConv (got : Option String)
  | floatConv (got : Option String)
deriving DecidableEq

/-- Python message text of the explicit dict errors, mirroring the
f-strings in `parse_dict` (a `None` token prints as `None`). -/
def errMsg : PErr → String
  | .fuelOut => "<nontermination>"
  | .noneTokenAttr => "AttributeError"
  | .dictExpectedComma (some t) => "Expected ',' in dict, got " ++ t
  | .dictExpectedComma none => "Expected ',' in dict, got None"
  | .dictExpectedBrace (some t) => "Expected '\x7d' in dict, got " ++ t
  | .dictExpectedBrace none => "Expected '\x7d' in dict, got None"
  | .intConv (some t) => "int conversion failed on " ++ t
  | .intConv none => "int conversion failed on None"
  | .floatConv (some t) => "float conversion failed on " ++ t
  | .floatConv none => "float conversion failed on None"

/-- Structural characters of the lexer: the seven characters of the
`'[](),\x7b\x7d'` membership test together with `':'`, each emitted as a
one-character token. -/
def isStructChar (c : Char) : Bool :=
  c = '[' || c = ']' || c = '(' || c = ')' || c = ',' || c = '\x7b' || c = '\x7d' || c = ':'

/-- Python `str.isspace` for the purposes of the lexer. -/
def pyIsSpace (c : Char) : Bool := c.isWhitespace

/-- Emit the pending word accumulator as a token, if nonempty. -/
def flushWord (acc : List Char) : List String :=
  if acc.isEmpty then [] else [String.mk acc]

/-- Worker of `tokenize`: walks the characters, accumulating the current
word; whitespace separates, structural characters are their own tokens. -/
def tokenizeAux : List Char → List Char → List String
  | [], acc => flushWord acc
  | c :: rest, acc =>
    if pyIsSpace c then flushWord acc ++ tokenizeAux rest []
    else if isStructChar c then flushWord acc ++ [String.mk [c]] ++ tokenizeAux rest []
    else tokenizeAux rest (acc ++ [c])

/-- Embedding of `tokenize`: split the input into structural one-character
tokens and maximal word runs, discarding whitespace. -/
def tokenize (text : String) : List String := tokenizeAux text.toList []

/-- Python str-formatting of a token that may be `None`. -/
def optStr : Option String → String
  | none => "None"
  | some t => t

/-- Python `str.isdigit`, restricted to ASCII digits: nonempty and all
characters in `0`..`9`. -/
def pyIsDigit (t : String) : Bool :=
  !t.toList.isEmpty && t.toList.all (fun c => c.isDigit)

/-- Python `token.replace(".", "")`. -/
def stripDots (t : String) : String := String.mk (t.toList.filter (fun c => c ≠ '.'))

/-- Python `"." in token`. -/
def hasDot (t : String) : Bool := t.toList.contains '.'

/-- Number of `.` characters in the token. -/
def dotCount (t : String) : Nat := t.toList.count '.'

/-- Decimal value of an all-digit token. -/
def digitsToNat (t : String) : Nat :=
  t.toList.foldl (fun n c => 10 * n + (c.toNat - 48)) 0

/-- Strip leading zeros of an integer-part digit run, keeping at least one
digit. -/
def normIntPart (a : String) : String :=
  let s := a.toList.dropWhile (fun c => c = '0')
  if s.isEmpty then "0" else String.mk s

/-- Strip trailing zeros of a fractional-part digit run, keeping at least
one digit. -/
def normFracPart (b : String) : String :=
  let s := (b.toList.reverse.dropWhile (fun c => c = '0')).reverse
  if s.isEmpty then "0" else String.mk s

/-- Split a character list on `.` separators. -/
def splitDotAux : List Char → List Char → List (List Char)
  | [], acc => [acc]
  | c :: rest, acc =>
    if c = '.' then acc :: splitDotAux rest []
    else splitDotAux rest (acc ++ [c])

/-- Decimal normal form of a digits-and-one-dot token, modelling
`str(float(token))` for exact short decimals. -/
def floatNorm1 (t : String) : String :=
  match splitDotAux t.toList [] with
  | [a, b] => normIntPart (String.mk a) ++ "." ++ normFracPart (String.mk b)
  | _ => t

/-- First character of a string is the given one. -/
def firstIs (t : String) (c : Char) : Bool :=
  match t.toList with
  | [] => false
  | d :: _ => d = c

/-- The string without its first character. -/
def dropFirst (t : String) : String := String.mk t.toList.tail

/-- Python `int(token)` on an optional token: optional sign followed by
digits succeeds, anything else (including a `None` token) raises. -/
def pyIntConv (o : Option String) : Except PErr Int :=
  match o with
  | none => .error (.intConv none)
  | some t =>
    if firstIs t '-' then
      if pyIsDigit (dropFirst t) then .ok (-(digitsToNat (dropFirst t) : Int))
      else .error (.intConv (some t))
    else if firstIs t '+' then
      if pyIsDigit (dropFirst t) then .ok ((digitsToNat (dropFirst t) : Int))
      else .error (.intConv (some t))
    else if pyIsDigit t then .ok ((digitsToNat t : Int))
    else .error (.intConv (some t))

/-- Python `float(token)` on an optional token, restricted to signed
digits-and-dots shapes; the result is stored as its printed decimal
normal form. Two or more dots raise, matching `float("1.2.3")`. -/
def pyFloatConv (o : Option String) : Except PErr String :=
  match o with
  | none => .error (.floatConv none)
  | some t =>
    let sgn := if firstIs t '-' then "-" else ""
    let u := if firstIs t '-' || firstIs t '+' then dropFirst t else t
    if pyIsDigit (stripDots u) then
      if dotCount u = 0 then .ok (sgn ++ normIntPart u ++ ".0")
      else if dotCount u = 1 then .ok (sgn ++ floatNorm1 u)
      else .error (.floatConv (some t))
    else .error (.floatConv (some t))

/-- Embedding of `parse_simple_token`: all-digit tokens become `Integer`;
tokens whose dot-stripped form is all digits and which contain a dot go
to `float()` (succeeding exactly when there is one dot); everything else
is `String`. A `None` token reproduces the `None.isdigit()` attribute
error. -/
def parseSimpleToken (token : Option String) : Except PErr AST :=
  match token with
  | none => .error .noneTokenAttr
  | some t =>
    if pyIsDigit t then .ok (.integer (digitsToNat t : Int))
    else if pyIsDigit (stripDots t) && hasDot t then
      if dotCount t = 1 then .ok (.float (floatNorm1 t))
      else .error (.floatConv (some t))
    else .ok (.string t)

/-- Python truthiness-guarded uppercase test `token and token[0].isupper()`
of the parser dispatch. -/
def tokenIsUpper : Option String → Bool
  | none => false
  | some t => !t.isEmpty && (t.get 0).isUpper

mutual

/-- Embedding of `Parser.parse_expression`: dispatch on the current token
(`[` list, `\x7b` dict, uppercase-led type constructor, otherwise consume
and classify a simple token). The vestigial `idx`/`eager` arguments are
never inspected by the source and are dropped. -/
def parseExpression : Nat → List String → Nat → Except PErr (AST × Nat)
  | 0, _, _ => .error .fuelOut
  | fuel + 1, ts, pos =>
    let token := ts[pos]?
    if token = some "[" then parseList fuel ts pos
    else if token = some "\x7b" then parseDict fuel ts pos
    else if tokenIsUpper token then parseTypeConstructor fuel ts pos
    else
      match parseSimpleToken token with
      | .error e => .error e
      | .ok a => .ok (a, pos + 1)
termination_by structural fuel _ _ => fuel

/-- Embedding of `Parser.parse_list`: consume `[`, then collect elements. -/
def parseList : Nat → List String → Nat → Except PErr (AST × Nat)
  | 0, _, _ => .error .fuelOut
  | fuel + 1, ts, pos =>
    match parseListElems fuel ts (pos + 1) with
    | .error e => .error e
    | .ok (es, p) => .ok (.list es, p)
termination_by structural fuel _ _ => fuel

/-- Embedding of the `parse_list` element loop: stop at `]` (consuming it),
skip `,`, otherwise parse an expression and continue. -/
def parseListElems : Nat → List String → Nat → Except PErr (ASTList × Nat)
  | 0, _, _ => .error .fuelOut
  | fuel + 1, ts, pos =>
    match ts[pos]? with
    | some "]" => .ok (.nil, pos + 1)
    | some "," => parseListElems fuel ts (pos + 1)
    | _ =>
      match parseExpression fuel ts pos with
      | .error e => .error e
      | .ok (a, p) =>
        match parseListElems fuel ts p with
        | .error e => .error e
        | .ok (rest, p2) => .ok (.cons a rest, p2)
termination_by structural fuel _ _ => fuel

/-- Embedding of `Parser.parse_dict`: consume `\x7b`, parse the keys
expression, require `,`, parse the values expression, require `\x7d`;
the two requirements raise `ValueError` with the actual token otherwise. -/
def parseDict : Nat → List String → Nat → Except PErr (AST × Nat)
  | 0, _, _ => .error .fuelOut
  | fuel + 1, ts, pos =>
    match parseExpression fuel ts (pos + 1) with
    | .error e => .error e
    | .ok (k, p1) =>
      if ts[p1]? = some "," then
        match parseExpression fuel ts (p1 + 1) with
        | .error e => .error e
        | .ok (v, p2) =>
          if ts[p2]? = some "\x7d" then .ok (.dict k v, p2 + 1)
          else .error (.dictExpectedBrace ts[p2]?)
      else .error (.dictExpectedComma ts[p1]?)
termination_by structural fuel _ _ => fuel

/-- Embedding of `Parser.parse_type_constructor`: an uppercase-led token
not followed by `[` degrades to a `String`; otherwise the name selects
the fixed behaviour table (`Symbol`, `Int`/`Long`, `Real`/`Float`,
`Bool`, `Func`, `LSymbol`, unknown-name fallback). Closing brackets are
consumed blindly, exactly as in the source. -/
def parseTypeConstructor : Nat → List String → Nat → Except PErr (AST × Nat)
  | 0, _, _ => .error .fuelOut
  | fuel + 1, ts, pos =>
    let typeName := optStr ts[pos]?
    let p := pos + 1
    if ts[p]? = some "[" then
      let q := p + 1
      if typeName = "Symbol" then .ok (.symbol (optStr ts[q]?), q + 2)
      else if typeName = "Int" ∨ typeName = "Long" then
        match pyIntConv ts[q]? with
        | .error e => .error e
        | .ok v => .ok (.integer v, q + 2)
      else if typeName = "Real" ∨ typeName = "Float" then
        match pyFloatConv ts[q]? with
        | .error e => .error e
        | .ok v => .ok (.float v, q + 2)
      else if typeName = "Bool" then .ok (.boolean (ts[q]? == some "1"), q + 2)
      else if typeName = "Func" then .ok (.function (optStr ts[q]?) .nil, q + 2)
      else if typeName = "LSymbol" then
        match parseLSymbolElems fuel ts q with
        | .error e => .error e
        | .ok (syms, p2) => .ok (.list syms, p2)
      else .ok (.string (typeName ++ "[" ++ optStr ts[q]? ++ "]"), q + 2)
    else .ok (.string typeName, p)

/-- Embedding of the `LSymbol` element loop: stop at `]` (consuming it),
skip `,`, otherwise consume any token (even a `None` one, which in the
source loops forever) as a `Symbol`. -/
def parseLSymbolElems : Nat → List String → Nat → Except PErr (ASTList × Nat)
  | 0, _, _ => .error .fuelOut
  | fuel + 1, ts, pos =>
    match ts[pos]? with
    | some "]" => .ok (.nil, pos + 1)
    | some "," => parseLSymbolElems fuel ts (pos + 1)
    | t =>
      match parseLSymbolElems fuel ts (pos + 1) with
      | .error e => .error e
      | .ok (rest, p) => .ok (.cons (.symbol (optStr t)) rest, p)
termination_by structural fuel _ _ => fuel

end

/-- Entry point `Parser.parse` on a token list, supplied with ample fuel. -/
def parseTokens (ts : List String) : Except PErr (AST × Nat) :=
  parseExpression (4 * ts.length + 4) ts 0

/-- Top-level parse, returning the AST (trailing tokens are ignored). -/
def parseTop (ts : List String) : Except PErr AST :=
  match parseTokens ts with
  | .error e => .error e
  | .ok (a, _) => .ok a

/-- Glyph-substitution table of the direct renderer `transform_ast`. -/
def transformGlyphMap : List (String × String) :=
  [("@", "at"), ("!", "bang"), (":", "colon"), ("::", "colon_colon"),
   ("-", "dash"), (".", "dot"), ("$", "dollar"), ("#", "hash"), ("?", "query")]

/-- Glyph-substitution table of the flattening renderer `flatten_ast`; it
has one extra entry mapping `_` to `underscore`. -/
def flattenGlyphMap : List (String × String) :=
  [("@", "at"), ("!", "bang"), (":", "colon"), ("::", "colon_colon"),
   ("-", "dash"), (".", "dot"), ("$", "dollar"), ("#", "hash"), ("?", "query"),
   ("_", "underscore")]

/-- Python `glyph_map.get(name, name)` for the direct renderer. -/
def transformGlyph (n : String) : String := (transformGlyphMap.lookup n).getD n

/-- Python `glyph_map.get(name, name)` for the flattening renderer. -/
def flattenGlyph (n : String) : String := (flattenGlyphMap.lookup n).getD n

/-- Rendering of a stored float value: `str(value)` with `.0` appended when
no decimal point is present, as both renderers do. -/
def pyFloatStr (v : String) : String := if hasDot v then v else v ++ ".0"

/-- Python `isinstance(node, Function)`. -/
def isFunctionNode : AST → Bool
  | .function _ _ => true
  | _ => false

/-- The `name` field of a `Function` node (only read behind
`isFunctionNode`). -/
def fnName : AST → String
  | .function n _ => n
  | _ => ""

mutual

/-- Embedding of `transform_ast`, the direct renderer. The first component
is the rendered string; the second is the tree as it stands afterwards,
recording the in-place `func.args = node.elements[1:]` assignment made
when a list's head is a `Function` node (the assigned argument objects
are themselves rendered, hence returned in their post-rendering state,
shared between the function's `args` and the list's tail). -/
def transformA : AST → String × AST
  | .symbol n => ("`" ++ n, .symbol n)
  | .integer v => (toString v, .integer v)
  | .float v => (pyFloatStr v, .float v)
  | .boolean b => (if b then "True" else "False", .boolean b)
  | .string v => (v, .string v)
  | .function n args =>
    let r := transformL args
    (transformGlyph n ++ "(" ++ String.intercalate ", " r.1 ++ ")", .function n r.2)
  | .list .nil => ("[]", .list .nil)
  | .list (.cons h tl) =>
    if isFunctionNode h then
      let r := transformL tl
      (transformGlyph (fnName h) ++ "(" ++ String.intercalate ", " r.1 ++ ")",
       .list (.cons (.function (fnName h) r.2) r.2))
    else
      let r1 := transformA h
      let r2 := transformL tl
      ("[" ++ String.intercalate ", " (r1.1 :: r2.1) ++ "]", .list (.cons r1.2 r2.2))
  | .dict k v =>
    let rk := transformA k
    let rv := transformA v
    ("\x7b" ++ rk.1 ++ ": " ++ rv.1 ++ "\x7d", .dict rk.2 rv.2)

/-- Direct rendering of a sequence of sibling nodes, left to right. -/
def transformL : ASTList → List String × ASTList
  | .nil => ([], .nil)
  | .cons a as =>
    let r1 := transformA a
    let r2 := transformL as
    (r1.1 :: r2.1, .cons r1.2 r2.2)

end

/-- Result of flattening one node: the emitted statements, the node's final
expression, the temporary counter afterwards, and the tree as it stands
afterwards (recording the same `args` assignment as the direct
renderer). -/
structure FlatR where
  stmts : List String
  expr : String
  ctr : Nat
  tree : AST
deriving DecidableEq

/-- Result of flattening a sequence of sibling nodes. -/
structure FlatL where
  stmts : List String
  exprs : List String
  ctr : Nat
  trees : ASTList
deriving DecidableEq

mutual

/-- Embedding of `Flattener.flatten_ast` with the object-level
`temp_counter` made an explicit argument: literals emit no statements;
a `Function` node first flattens its arguments in order, then mints
`temp<counter+1>` and appends one assignment statement; a list headed by
a `Function` is flattened as that call after the `args` assignment;
other lists and dicts concatenate their children's statements. -/
def flattenA : AST → Nat → FlatR
  | .symbol n, c => ⟨[], "`" ++ n, c, .symbol n⟩
  | .integer v, c => ⟨[], toString v, c, .integer v⟩
  | .float v, c => ⟨[], pyFloatStr v, c, .float v⟩
  | .boolean b, c => ⟨[], if b then "True" else "False", c, .boolean b⟩
  | .string v, c => ⟨[], v, c, .string v⟩
  | .function n args, c =>
    let r := flattenL args c
    let c2 := r.ctr + 1
    ⟨r.stmts ++ ["temp" ++ toString c2 ++ " = " ++ flattenGlyph n ++ "(" ++
        String.intercalate ", " r.exprs ++ ")"],
     "temp" ++ toString c2, c2, .function n r.trees⟩
  | .list .nil, c => ⟨[], "[]", c, .list .nil⟩
  | .list (.cons h tl), c =>
    if isFunctionNode h then
      let r := flattenL tl c
      let c2 := r.ctr + 1
      ⟨r.stmts ++ ["temp" ++ toString c2 ++ " = " ++ flattenGlyph (fnName h) ++ "(" ++
          String.intercalate ", " r.exprs ++ ")"],
       "temp" ++ toString c2, c2, .list (.cons (.function (fnName h) r.trees) r.trees)⟩
    else
      let r1 := flattenA h c
      let r2 := flattenL tl r1.ctr
      ⟨r1.stmts ++ r2.stmts, "[" ++ String.intercalate ", " (r1.expr :: r2.exprs) ++ "]",
       r2.ctr, .list (.cons r1.tree r2.trees)⟩
  | .dict k v, c =>
    let rk := flattenA k c
    let rv := flattenA v rk.ctr
    ⟨rk.stmts ++ rv.stmts, "\x7b" ++ rk.expr ++ ": " ++ rv.expr ++ "\x7d",
     rv.ctr, .dict rk.tree rv.tree⟩

/-- Flattening of a sequence of sibling nodes, threading the counter left
to right and concatenating statements in order. -/
def flattenL : ASTList → Nat → FlatL
  | .nil, c => ⟨[], [], c, .nil⟩
  | .cons a as, c =>
    let r1 := flattenA a c
    let r2 := flattenL as r1.ctr
    ⟨r1.stmts ++ r2.stmts, r1.expr :: r2.exprs, r2.ctr, .cons r1.tree r2.trees⟩

end

/-- Embedding of `Flattener.flatten`: reset the counter to zero and flatten. -/
def flatten (a : AST) : FlatR := flattenA a 0

/-- Embedding of `convert_lisp_to_function_calls`: tokenize, parse, render
with the direct renderer. -/
def convertDirect (s : String) : Except PErr String :=
  match parseTop (tokenize s) with
  | .error e => .error e
  | .ok a => .ok (transformA a).1

/-- Output formatting of `convert_lisp_to_flat_statements`: join the
statements with newlines and append the `result = ` line; with no
statements the result line stands alone. -/
def formatFlat (r : FlatR) : String :=
  if r.stmts.isEmpty then "result = " ++ r.expr
  else String.intercalate "\n" r.stmts ++ "\nresult = " ++ r.expr

/-- Embedding of `convert_lisp_to_flat_statements`: tokenize, parse,
flatten, format. -/
def convertFlat (s : String) : Except PErr String :=
  match parseTop (tokenize s) with
  | .error e => .error e
  | .ok a => .ok (formatFlat (flatten a))

/-- Statement-segment invariant used for the flattening renderer: the
segment's statements are numbered consecutively from `c + 1`. -/
def TempSeg (c : Nat) (stmts : List String) (c' : Nat) : Prop :=
  c ≤ c' ∧ stmts.length = c' - c ∧
    ∀ i s, stmts[i]? = some s → ∃ r, s = "temp" ++ toString (c + i + 1) ++ " = " ++ r

@[simp] theorem isFunctionNode_symbol (n : String) : isFunctionNode (.symbol n) = false := rfl
@[simp] theorem isFunctionNode_integer (v : Int) : isFunctionNode (.integer v) = false := rfl
@[simp] theorem isFunctionNode_float (v : String) : isFunctionNode (.float v) = false := rfl
@[simp] theorem isFunctionNode_boolean (b : Bool) : isFunctionNode (.boolean b) = false := rfl
@[simp] theorem isFunctionNode_string (v : String) : isFunctionNode (.string v) = false := rfl
@[simp] theorem isFunctionNode_function (n : String) (args : ASTList) :
    isFunctionNode (.function n args) = true := rfl
@[simp] theorem isFunctionNode_list (es : ASTList) : isFunctionNode (.list es) = false := rfl
@[simp] theorem isFunctionNode_dict (k v : AST) : isFunctionNode (.dict k v) = false := rfl
@[simp] theorem fnName_function (n : String) (args : ASTList) : fnName (.function n args) = n := rfl

theorem isFunctionNode_transformA (a : AST) : isFunctionNode (transformA a).2 = isFunctionNode a := by
  cases a with
  | list es =>
    cases es with
    | nil => simp [transformA]
    | cons h tl =>
      by_cases hf : isFunctionNode h = true <;> simp [transformA, hf]
  | _ => simp [transformA]

mutual

theorem transformA_fix (a : AST) : transformA (transformA a).2 = transformA a := by
  cases a with
  | symbol n => simp [transformA]
  | integer v => simp [transformA]
  | float v => simp [transformA]
  | boolean b => simp [transformA]
  | string v => simp [transformA]
  | function n args => simp [transformA, transformL_fix args]
  | dict k v => simp [transformA, transformA_fix k, transformA_fix v]
  | list es =>
    cases es with
    | nil => simp [transformA]
    | cons h tl =>
      by_cases hf : isFunctionNode h = true
      · simp [transformA, hf, transformL_fix tl]
      · have h2 : isFunctionNode (transformA h).2 = false := by
          rw [isFunctionNode_transformA]; simpa using hf
        simp [transformA, hf, h2, transformA_fix h, transformL_fix tl]

theorem transformL_fix (l : ASTList) : transformL (transformL l).2 = transformL l := by
  cases l with
  | nil => simp [transformL]
  | cons a as => simp [transformL, transformA_fix a, transformL_fix as]

end

mutual

theorem flattenA_tree (a : AST) (c : Nat) : (flattenA a c).tree = (transformA a).2 := by
  cases a with
  | symbol n => simp [flattenA, transformA]
  | integer v => simp [flattenA, transformA]
  | float v => simp [flattenA, transformA]
  | boolean b => simp [flattenA, transformA]
  | string v => simp [flattenA, transformA]
  | function n args => simp [flattenA, transformA, flattenL_trees args c]
  | dict k v => simp [flattenA, transformA, flattenA_tree k c, flattenA_tree v (flattenA k c).ctr]
  | list es =>
    cases es with
    | nil => simp [flattenA, transformA]
    | cons h tl =>
      by_cases hf : isFunctionNode h = true
      · simp [flattenA, transformA, hf, flattenL_trees tl c]
      · simp [flattenA, transformA, hf, flattenA_tree h c, flattenL_trees tl (flattenA h c).ctr]

theorem flattenL_trees (l : ASTList) (c : Nat) : (flattenL l c).trees = (transformL l).2 := by
  cases l with
  | nil => simp [flattenL, transformL]
  | cons a as => simp [flattenL, transformL, flattenA_tree a c, flattenL_trees as (flattenA a c).ctr]

end

mutual

theorem flattenA_mut (a : AST) (c : Nat) : flattenA (transformA a).2 c = flattenA a c := by
  cases a with
  | symbol n => simp [flattenA, transformA]
  | integer v => simp [flattenA, transformA]
  | float v => simp [flattenA, transformA]
  | boolean b => simp [flattenA, transformA]
  | string v => simp [flattenA, transformA]
  | function n args => simp [flattenA, transformA, flattenL_mut args c]
  | dict k v =>
    simp [flattenA, transformA, flattenA_mut k c]
    rw [flattenA_mut v (flattenA k c).ctr]
    simp
  | list es =>
    cases es with
    | nil => simp [flattenA, transformA]
    | cons h tl =>
      by_cases hf : isFunctionNode h = true
      · simp [transformA, hf]
        simp [flattenA, hf, flattenL_mut tl c]
      · have h2 : isFunctionNode (transformA h).2 = false := by
          rw [isFunctionNode_transformA]; simpa using hf
        simp [transformA, hf]
        simp [flattenA, hf, h2, flattenA_mut h c]
        rw [flattenL_mut tl (flattenA h c).ctr]
        simp

theorem flattenL_mut (l : ASTList) (c : Nat) : flattenL (transformL l).2 c = flattenL l c := by
  cases l with
  | nil => simp [flattenL, transformL]
  | cons a as =>
    simp [flattenL, transformL, flattenA_mut a c]
    rw [flattenL_mut as (flattenA a c).ctr]
    simp

end

theorem tempSeg_nil (c : Nat) : TempSeg c [] c := by
  refine ⟨le_rfl, by simp, ?_⟩
  intro i s h
  simp at h

theorem tempSeg_append {c c1 c2 : Nat} {s1 s2 : List String}
    (h1 : TempSeg c s1 c1) (h2 : TempSeg c1 s2 c2) : TempSeg c (s1 ++ s2) c2 := by
  obtain ⟨h1a, h1b, h1c⟩ := h1
  obtain ⟨h2a, h2b, h2c⟩ := h2
  refine ⟨le_trans h1a h2a, by simp [h1b, h2b]; omega, ?_⟩
  intro i s h
  rcases lt_or_ge i s1.length with hlt | hge
  · rw [List.getElem?_append_left hlt] at h
    exact h1c i s h
  · rw [List.getElem?_append_right hge] at h
    obtain ⟨r, hr⟩ := h2c (i - s1.length) s h
    refine ⟨r, ?_⟩
    have : c1 + (i - s1.length) + 1 = c + i + 1 := by omega
    rw [this] at hr
    exact hr

theorem tempSeg_mint {c c1 : Nat} {s1 : List String} (g x : String)
    (h1 : TempSeg c s1 c1) :
    TempSeg c (s1 ++ ["temp" ++ toString (c1 + 1) ++ " = " ++ g ++ "(" ++ x ++ ")"]) (c1 + 1) := by
  refine tempSeg_append h1 ⟨by omega, by simp, ?_⟩
  intro i s h
  rcases hk : i with _ | k
  · rw [hk] at h
    simp at h
    refine ⟨g ++ "(" ++ x ++ ")", ?_⟩
    rw [← h]
    simp [String.append_assoc]
  · rw [hk] at h
    simp at h

mutual

theorem flattenA_seg (a : AST) (c : Nat) : TempSeg c (flattenA a c).stmts (flattenA a c).ctr := by
  cases a with
  | symbol n => exact tempSeg_nil c
  | integer v => exact tempSeg_nil c
  | float v => exact tempSeg_nil c
  | boolean b => exact tempSeg_nil c
  | string v => exact tempSeg_nil c
  | function n args =>
    have h := flattenL_seg args c
    simp only [flattenA]
    exact tempSeg_mint _ _ h
  | dict k v =>
    have h1 := flattenA_seg k c
    have h2 := flattenA_seg v (flattenA k c).ctr
    simp only [flattenA]
    exact tempSeg_append h1 h2
  | list es =>
    cases es with
    | nil => exact tempSeg_nil c
    | cons h tl =>
      by_cases hf : isFunctionNode h = true
      · have hs := flattenL_seg tl c
        simp only [flattenA, hf, if_true]
        exact tempSeg_mint _ _ hs
      · have h1 := flattenA_seg h c
        have h2 := flattenL_seg tl (flattenA h c).ctr
        simp only [flattenA, hf, if_false]
        exact tempSeg_append h1 h2

theorem flattenL_seg (l : ASTList) (c : Nat) : TempSeg c (flattenL l c).stmts (flattenL l c).ctr := by
  cases l with
  | nil => exact tempSeg_nil c
  | cons a as =>
    have h1 := flattenA_seg a c
    have h2 := flattenL_seg as (flattenA a c).ctr
    simp only [flattenL]
    exact tempSeg_append h1 h2

end

theorem lsymbolLoop_diverges :
    ∀ f p, 2 ≤ p → parseLSymbolElems f ["LSymbol", "[", "s"] p = .error .fuelOut := by
  intro f
  induction f with
  | zero => intro p _; simp [parseLSymbolElems]
  | succ g ih =>
    intro p hp
    rcases Nat.lt_or_ge p 3 with h3 | h3
    · have hp2 : p = 2 := by omega
      subst hp2
      simp [parseLSymbolElems, ih 3 (by omega)]
    · have hnone : (["LSymbol", "[", "s"] : List String)[p]? = none := by
        apply List.getElem?_eq_none
        simp
        omega
      simp [parseLSymbolElems, hnone, ih (p + 1) (by omega)]

/-- C1: the claim says a missing closing bracket/brace must produce an
explicit out-of-input parse error. The code does not: `Bool[1` (missing
`]`) parses silently to `Boolean true` because the closing bracket is
consumed blindly; `[a` (missing `]`) fails with the attribute error of
classifying the `None` token; `LSymbol[s` (missing `]`) never terminates
(modelled as fuel exhaustion for every fuel). -/
theorem spec_C1_missing_closer_behaviour :
    parseTop (tokenize "Bool[1") = .ok (.boolean true) ∧
    parseTop (tokenize "[a") = .error .noneTokenAttr ∧
    ∀ f, parseExpression f (tokenize "LSymbol[s") 0 = .error .fuelOut := by
  refine ⟨by decide, by decide, ?_⟩
  have htok : tokenize "LSymbol[s" = ["LSymbol", "[", "s"] := by decide
  rw [htok]
  intro f
  match f with
  | 0 => simp [parseExpression]
  | g + 1 =>
    have hup : tokenIsUpper (some "LSymbol") = true := by decide
    simp only [parseExpression]
    simp [hup]
    match g with
    | 0 => simp [parseTypeConstructor]
    | g' + 1 =>
      simp [parseTypeConstructor, optStr, lsymbolLoop_diverges g' 2 (by omega)]

theorem hasDot_not_pyIsDigit (t : String) (h : hasDot t = true) : pyIsDigit t = false := by
  cases hd : pyIsDigit t
  · rfl
  · exfalso
    simp [pyIsDigit] at hd
    simp [hasDot] at h
    have := hd.2 '.' h
    simp at this

theorem hasDot_dotCount_pos (t : String) (h : hasDot t = true) : 1 ≤ dotCount t := by
  simp [hasDot] at h
  simpa [dotCount, List.count_pos_iff] using h

/-- C2 counterexample: the token `1.2.3` passes the guard
`token.replace(".", "").isdigit() and "." in token`, so the source hands
it to `float()`, which raises a conversion error; it is not classified as
`String`. Moreover `.5`, which has digits on one side of its single dot
only, is classified as `Float`. -/
theorem spec_C2_counterexample :
    parseSimpleToken (some "1.2.3") = .error (.floatConv (some "1.2.3")) ∧
    parseSimpleToken (some "1.2.3") ≠ .ok (.string "1.2.3") ∧
    parseSimpleToken (some ".5") = .ok (.float "0.5") := by
  refine ⟨by decide, by decide, by decide⟩

/-- C2 amended: a simple token is classified as `Integer` exactly when it
is all digits; when its dot-stripped form is all digits and it contains a
dot, `float()` is attempted, classifying it as `Float` exactly when it has
one dot (digits need not flank both sides) and raising a conversion error
when it has two or more dots (so `1.2.3` errors rather than becoming a
`String`); it is classified as `String` in every other case. -/
theorem spec_C2_amended_classification (t : String) :
    ((∃ n, parseSimpleToken (some t) = .ok (.integer n)) ↔ pyIsDigit t = true) ∧
    ((∃ v, parseSimpleToken (some t) = .ok (.float v)) ↔
      (pyIsDigit (stripDots t) = true ∧ hasDot t = true ∧ dotCount t = 1)) ∧
    ((parseSimpleToken (some t) = .ok (.string t)) ↔
      (pyIsDigit t = false ∧ (pyIsDigit (stripDots t) && hasDot t) = false)) ∧
    ((∃ e, parseSimpleToken (some t) = .error e) ↔
      (pyIsDigit (stripDots t) = true ∧ hasDot t = true ∧ 2 ≤ dotCount t)) := by
  by_cases h1 : pyIsDigit t = true
  · have hd : hasDot t = false := by
      cases hdd : hasDot t
      · rfl
      · exact absurd h1 (by simp [hasDot_not_pyIsDigit t hdd])
    simp [parseSimpleToken, h1, hd]
  · by_cases h2 : (pyIsDigit (stripDots t) && hasDot t) = true
    · have h2' := h2
      rw [Bool.and_eq_true] at h2'
      by_cases h3 : dotCount t = 1
      · simp [parseSimpleToken, h1, h2, h3, h2'.1, h2'.2]
      · have hge : 2 ≤ dotCount t := by
          have := hasDot_dotCount_pos t h2'.2
          omega
        simp [parseSimpleToken, h1, h2, h3, h2'.1, h2'.2, hge]
    · simp [parseSimpleToken, h1, h2]
      constructor <;>
        exact fun ha hb =>
          absurd (show (pyIsDigit (stripDots t) && hasDot t) = true by rw [ha, hb]; rfl) h2

/-- C5: the flattening renderer's glyph table maps `_` to `underscore`
while the direct renderer's table passes `_` through unchanged, so a
`Function` node named `_` flattens to a `temp1 = underscore()` statement
but direct-renders as `_()`; on every other name the two tables agree. -/
theorem spec_C5_glyph_tables :
    flattenGlyph "_" = "underscore" ∧
    transformGlyph "_" = "_" ∧
    (flattenA (.function "_" .nil) 0).stmts = ["temp1 = underscore()"] ∧
    (transformA (.function "_" .nil)).1 = "_()" ∧
    ∀ n, n ≠ "_" → flattenGlyph n = transformGlyph n := by
  refine ⟨by decide, by decide, by decide, by decide, ?_⟩
  intro n hn
  have h9 : (n == "_") = false := by
    simpa using hn
  simp [flattenGlyph, transformGlyph, flattenGlyphMap, transformGlyphMap, List.lookup, h9]

/-- C6: a dict whose two expressions are not separated by a comma, or
which lacks its closing brace, raises the structural `ValueError` naming
the expected and actual token; the input of the claim, and the general
shape of `parse_dict`, are both covered. -/
theorem spec_C6_dict_errors :
    parseTop (tokenize "\x7ba b\x7d") = .error (.dictExpectedComma (some "b")) ∧
    errMsg (.dictExpectedComma (some "b")) = "Expected ',' in dict, got b" ∧
    parseTop (tokenize "\x7ba,b") = .error (.dictExpectedBrace none) ∧
    errMsg (.dictExpectedBrace none) = "Expected '\x7d' in dict, got None" ∧
    (∀ f ts pos k p1, parseExpression f ts (pos + 1) = .ok (k, p1) →
      ts[p1]? ≠ some "," →
      parseDict (f + 1) ts pos = .error (.dictExpectedComma ts[p1]?)) ∧
    (∀ f ts pos k p1 v p2, parseExpression f ts (pos + 1) = .ok (k, p1) →
      ts[p1]? = some "," →
      parseExpression f ts (p1 + 1) = .ok (v, p2) →
      ts[p2]? ≠ some "\x7d" →
      parseDict (f + 1) ts pos = .error (.dictExpectedBrace ts[p2]?)) := by
  refine ⟨by decide, by decide, by decide, by decide, ?_, ?_⟩
  · intro f ts pos k p1 hk hne
    simp [parseDict, hk, hne]
  · intro f ts pos k p1 v p2 hk hc hv hne
    simp [parseDict, hk, hc, hv, hne]

/-- C10: comma tokens are pure separators in list parsing and in the
`LSymbol` constructor: leading, trailing and repeated commas change
nothing, `[]` parses to the empty `List`, and each element loop steps
over a comma without touching its accumulated elements. -/
theorem spec_C10_commas :
    parseTop (tokenize "[,a,,b,]") = parseTop (tokenize "[a,b]") ∧
    parseTop (tokenize "[a,b]") = .ok (.list (.cons (.string "a") (.cons (.string "b") .nil))) ∧
    parseTop (tokenize "[]") = .ok (.list .nil) ∧
    parseTop (tokenize "LSymbol[,s,,t,]") = parseTop (tokenize "LSymbol[s,t]") ∧
    parseTop (tokenize "LSymbol[s,t]") =
      .ok (.list (.cons (.symbol "s") (.cons (.symbol "t") .nil))) ∧
    (∀ f ts pos, ts[pos]? = some "," →
      parseListElems (f + 1) ts pos = parseListElems f ts (pos + 1)) ∧
    (∀ f ts pos, ts[pos]? = some "," →
      parseLSymbolElems (f + 1) ts pos = parseLSymbolElems f ts (pos + 1)) := by
  refine ⟨by decide, by decide, by decide, by decide, by decide, ?_, ?_⟩
  · intro f ts pos h
    simp [parseListElems, h]
  · intro f ts pos h
    simp [parseLSymbolElems, h]

/-- C3: both renderers are total over every AST the parser produces — a
successful parse always yields a direct rendering and a flattened
rendering, with no further failure in either pipeline. -/
theorem spec_C3_renderers_total (s : String) (a : AST)
    (h : parseTop (tokenize s) = .ok a) :
    convertDirect s = .ok (transformA a).1 ∧
    convertFlat s = .ok (formatFlat (flatten a)) := by
  constructor <;> simp [convertDirect, convertFlat, h]

theorem spec_C3_witness :
    convertDirect "[Func[min]]" = .ok "min()" ∧
    convertFlat "[Func[min]]" = .ok ("temp1 = min()" ++ "\n" ++ "result = temp1") := by
  have h := spec_C3_renderers_total "[Func[min]]"
    (.list (.cons (.function "min" .nil) .nil)) (by decide)
  exact ⟨h.1.trans (by decide), h.2.trans (by decide)⟩

/-- C4: rendering a tree twice, with either renderer or one after the
other, yields identical output both times, even though the first
rendering rewrites the `args` of a `Function` heading a `List` — the
second run performs the same assignment with the same values. -/
theorem spec_C4_render_idempotent (a : AST) :
    (transformA (transformA a).2).1 = (transformA a).1 ∧
    formatFlat (flatten ((flatten a).tree)) = formatFlat (flatten a) ∧
    (transformA ((flatten a).tree)).1 = (transformA a).1 ∧
    formatFlat (flatten ((transformA a).2)) = formatFlat (flatten a) := by
  refine ⟨by rw [transformA_fix], ?_, ?_, ?_⟩
  · show formatFlat (flattenA (flattenA a 0).tree 0) = _
    rw [flattenA_tree a 0, flattenA_mut a 0, flatten]
  · show (transformA (flattenA a 0).tree).1 = _
    rw [flattenA_tree a 0, transformA_fix]
  · show formatFlat (flattenA (transformA a).2 0) = _
    rw [flattenA_mut a 0, flatten]

/-- C7: `[Func[min]]` direct-renders as `min()` and flattens to the
two lines `temp1 = min()` and `result = temp1`; in general the flattened
output joins the statements with newlines followed by a final
`result = <final_expression>` line, which stands alone when there are no
statements. -/
theorem spec_C7_flat_output_format :
    convertDirect "[Func[min]]" = .ok "min()" ∧
    convertFlat "[Func[min]]" = .ok ("temp1 = min()" ++ "\n" ++ "result = temp1") ∧
    (∀ s a, parseTop (tokenize s) = .ok a →
      convertFlat s = .ok (if (flatten a).stmts.isEmpty
        then "result = " ++ (flatten a).expr
        else String.intercalate "\n" (flatten a).stmts ++ "\nresult = " ++ (flatten a).expr)) := by
  refine ⟨by decide, by decide, ?_⟩
  intro s a h
  simp [convertFlat, h, formatFlat]

theorem spec_C7_witness : convertFlat "x" = .ok ("result = " ++ "x") := by
  have h := spec_C7_flat_output_format.2.2 "x" (.string "x") (by decide)
  exact h.trans (by decide)

/-- C9: the statement list of `Flattener.flatten` contains exactly one
assignment per minted temporary (its length equals the final counter),
the k-th statement binds `temp<k>`, and the final expression of a
`Function` node is the most recently minted temporary. -/
theorem spec_C9_flatten_invariant (a : AST) :
    (flatten a).stmts.length = (flatten a).ctr ∧
    (∀ i s, (flatten a).stmts[i]? = some s →
      ∃ r, s = "temp" ++ toString (i + 1) ++ " = " ++ r) ∧
    (∀ n args, a = .function n args →
      (flatten a).expr = "temp" ++ toString (flatten a).ctr ∧ 1 ≤ (flatten a).ctr) := by
  obtain ⟨h1, h2, h3⟩ := flattenA_seg a 0
  refine ⟨by simpa [flatten] using h2, ?_, ?_⟩
  · intro i s h
    obtain ⟨r, hr⟩ := h3 i s (by simpa [flatten] using h)
    exact ⟨r, by simpa using hr⟩
  · rintro n args rfl
    constructor
    · simp [flatten, flattenA]
    · simp [flatten, flattenA]

theorem spec_C9_witness :
    (flatten (.function "f" .nil)).stmts.length = (flatten (.function "f" .nil)).ctr ∧
    (flatten (.function "f" .nil)).expr = "temp" ++ toString (flatten (.function "f" .nil)).ctr := by
  have h := spec_C9_flatten_invariant (.function "f" .nil)
  exact ⟨h.1, (h.2.2 "f" .nil rfl).1⟩

theorem parseTypeConstructor_bool (f : Nat) (ts : List String) (pos : Nat)
    (h0 : optStr ts[pos]? = "Bool") (h1 : ts[pos + 1]? = some "[") :
    parseTypeConstructor (f + 1) ts pos = .ok (.boolean (ts[pos + 2]? == some "1"), pos + 4) := by
  simp [parseTypeConstructor, h0, h1]

/-- C8: the `Bool` constructor yields a `Boolean` node that is true exactly
when its token is literally `1`; `Bool[1]` renders as `True`, while
`Bool[0]` and any other token render as `False`. -/
theorem spec_C8_bool_constructor :
    (∀ t : String, parseTop ["Bool", "[", t, "]"] = .ok (.boolean (t == "1"))) ∧
    convertDirect "Bool[1]" = .ok "True" ∧
    convertDirect "Bool[0]" = .ok "False" ∧
    convertDirect "Bool[x]" = .ok "False" := by
  refine ⟨?_, by decide, by decide, by decide⟩
  intro t
  have hup : tokenIsUpper (some "Bool") = true := by decide
  have hb := parseTypeConstructor_bool 18 ["Bool", "[", t, "]"] 0 rfl rfl
  simp only [parseTop, parseTokens]
  have hfuel : 4 * (["Bool", "[", t, "]"] : List String).length + 4 = 19 + 1 := by simp
  rw [hfuel]
  simp only [parseExpression]
  simp only [List.getElem?_cons_zero]
  rw [if_neg (by decide), if_neg (by decide), if_pos hup]
  rw [show (19 : Nat) = 18 + 1 from rfl, hb]
  rfl

theorem spec_C2_witness :
    ∃ v, parseSimpleToken (some "7.5") = .ok (.float v) := by
  exact (spec_C2_amended_classification "7.5").2.1.mpr ⟨by decide, by decide, by decide⟩

theorem spec_C5_witness : flattenGlyph "@" = transformGlyph "@" := by
  exact spec_C5_glyph_tables.2.2.2.2 "@" (by decide)

theorem spec_C6_witness :
    parseDict 18 ["\x7b", "a", "b", "\x7d"] 0 = .error (.dictExpectedComma (some "b")) := by
  have h := spec_C6_dict_errors.2.2.2.2.1 17 ["\x7b", "a", "b", "\x7d"] 0
    (.string "a") 2 (by decide) (by decide)
  exact h.trans (by decide)

theorem spec_C10_witness :
    parseListElems 3 ["[", ",", "a", "]"] 1 = parseListElems 2 ["[", ",", "a", "]"] 2 := by
  exact spec_C10_commas.2.2.2.2.2.1 2 ["[", ",", "a", "]"] 1 (by decide)
